import Mathlib

/-
Verification of the SDF field module (src/src/nodes/field.rs) of
stardust-xr-rs.

Shallow embedding conventions:
- `f32` scalars are modelled as real numbers; vector lengths use `Real.sqrt`.
- glam's `Vec3A`/`Vec3` are a structure of three reals; `Mat4` is a 4x4 real
  matrix, `transform_point3a` multiplies by the matrix with homogeneous
  coordinate 1 and `transform_vector3a` with homogeneous coordinate 0.
- glam's `normalize` divides by the vector length; a zero length produces a
  non-finite IEEE result, which the embedding tracks as `Option.none`.
- Fallible operations return `Except String _`; a Rust `unwrap` panic is an
  `Option.none` at the outer level.
-/

namespace StardustField

/-- A 3-component vector of reals, modelling glam `Vec3`/`Vec3A` with `f32`
components embedded as reals. -/
structure Vec3 where
  x : ℝ
  y : ℝ
  z : ℝ

instance : Add Vec3 := ⟨fun a b => ⟨a.x + b.x, a.y + b.y, a.z + b.z⟩⟩

instance : Sub Vec3 := ⟨fun a b => ⟨a.x - b.x, a.y - b.y, a.z - b.z⟩⟩

instance : Neg Vec3 := ⟨fun a => ⟨-a.x, -a.y, -a.z⟩⟩

/-- Componentwise scaling, modelling glam's `Vec3A * f32`. -/
noncomputable def vecScale (c : ℝ) (v : Vec3) : Vec3 := ⟨c * v.x, c * v.y, c * v.z⟩

/-- glam `Vec3A::length`: the Euclidean norm. -/
noncomputable def Vec3.length (v : Vec3) : ℝ := Real.sqrt (v.x ^ 2 + v.y ^ 2 + v.z ^ 2)

/-- glam `Vec2::length` applied to components `(a, b)`. -/
noncomputable def len2 (a b : ℝ) : ℝ := Real.sqrt (a ^ 2 + b ^ 2)

/-- Modelled from the spec: glam's `normalize` (external crate) multiplies by
the reciprocal of the length; "normalizing a zero-length vector" is "not
specially guarded; producing a non-finite result is possible".  `none` models
the non-finite result arising from a zero length; `some` carries the finite
normalized vector. -/
noncomputable def normalizeF (v : Vec3) : Option Vec3 :=
  if v.length = 0 then none else some (vecScale v.length⁻¹ v)

/-- `BoxField::local_distance`: reflect into the positive octant, subtract the
half extents to get `q`, then `length(max(q,0)) + min(max(q.x,q.y,q.z), 0)`. -/
noncomputable def boxLocalDistance (size : Vec3) (p : Vec3) : ℝ :=
  let q : Vec3 := ⟨|p.x| - size.x * 0.5, |p.y| - size.y * 0.5, |p.z| - size.z * 0.5⟩
  let v : Vec3 := ⟨max q.x 0, max q.y 0, max q.z 0⟩
  v.length + min (max q.x (max q.y q.z)) 0

/-- The mutable parameters of `CylinderField`: a length and a radius. -/
structure CylinderParams where
  length : ℝ
  radius : ℝ

/-- `CylinderField::local_distance`.  The source loads `self.length` into a
local variable named `radius` and uses it in both components of `d`; the
`radius` parameter is never read. -/
noncomputable def cylinderLocalDistance (c : CylinderParams) (p : Vec3) : ℝ :=
  let radius := c.length
  let d₁ := |len2 p.x p.y| - radius
  let d₂ := |p.z| - radius * 0.5
  min (max d₁ d₂) 0 + (if 0 ≤ d₁ ∧ 0 ≤ d₂ then len2 d₁ d₂ else 0)

/-- `SphereField::local_distance`: `p.length() - radius`. -/
noncomputable def sphereLocalDistance (radius : ℝ) (p : Vec3) : ℝ :=
  p.length - radius

/-- `SphereField::local_normal`: `-p.normalize()` (inward). -/
noncomputable def sphereLocalNormal (p : Vec3) : Option Vec3 :=
  (normalizeF p).map Neg.neg

/-- `SphereField::local_closest_point`: `p.normalize() * radius`. -/
noncomputable def sphereLocalClosestPoint (radius : ℝ) (p : Vec3) : Option Vec3 :=
  (normalizeF p).map (fun n => vecScale radius n)

/-- The default `FieldTrait::local_normal` body, verbatim: with `e = vec2(r,0)`
the three extra samples are taken at `(e.x,e.y,e.y)`, `(e.y,e.x,e.y)`,
`(e.y,e.y,e.x)` — the raw axis points `(r,0,0)`, `(0,r,0)`, `(0,0,r)` — and
subtracted from `local_distance(p)` replicated across axes, then normalized. -/
noncomputable def defaultLocalNormal (dist : Vec3 → ℝ) (p : Vec3) (r : ℝ) : Option Vec3 :=
  let d := dist p
  let n : Vec3 := ⟨d - dist ⟨r, 0, 0⟩, d - dist ⟨0, r, 0⟩, d - dist ⟨0, 0, r⟩⟩
  normalizeF n

/-- The default `FieldTrait::local_closest_point` body:
`p - local_normal(p, r) * local_distance(p)`. -/
noncomputable def defaultLocalClosestPoint (dist : Vec3 → ℝ) (p : Vec3) (r : ℝ) : Option Vec3 :=
  (defaultLocalNormal dist p r).map (fun n => p - vecScale (dist p) n)

/-- Modelled from the spec: "evaluate `local_distance` at `point` offset by
`epsilon` along each axis, subtract from the value at `point` replicated
across axes, normalize the resulting vector." -/
noncomputable def specLocalNormal (dist : Vec3 → ℝ) (p : Vec3) (r : ℝ) : Option Vec3 :=
  let d := dist p
  let n : Vec3 := ⟨d - dist (p + ⟨r, 0, 0⟩), d - dist (p + ⟨0, r, 0⟩), d - dist (p + ⟨0, 0, r⟩)⟩
  normalizeF n

/-- The `Field` enum: the closed union of the three field kinds, holding each
kind's parameters (the shared spatial reference is handled separately by the
frame-aware layer). -/
inductive Field where
  | box (size : Vec3)
  | cylinder (params : CylinderParams)
  | sphere (radius : ℝ)

/-- The kind tag of a field. -/
inductive FieldKind where
  | box
  | cylinder
  | sphere
deriving DecidableEq

/-- The kind of a `Field` value. -/
def Field.kind : Field → FieldKind
  | .box _ => .box
  | .cylinder _ => .cylinder
  | .sphere _ => .sphere

/-- `FieldTrait::local_distance` dispatched over the `Field` enum. -/
noncomputable def Field.localDistance : Field → Vec3 → ℝ
  | .box s => boxLocalDistance s
  | .cylinder c => cylinderLocalDistance c
  | .sphere rad => sphereLocalDistance rad

/-- `FieldTrait::local_normal` dispatched over the `Field` enum: `BoxField` and
`CylinderField` use the trait default, `SphereField` overrides it. -/
noncomputable def Field.localNormal : Field → Vec3 → ℝ → Option Vec3
  | .box s => defaultLocalNormal (boxLocalDistance s)
  | .cylinder c => defaultLocalNormal (cylinderLocalDistance c)
  | .sphere _ => fun p _ => sphereLocalNormal p

/-- `FieldTrait::local_closest_point` dispatched over the `Field` enum:
`BoxField` and `CylinderField` use the trait default, `SphereField` overrides
it. -/
noncomputable def Field.localClosestPoint : Field → Vec3 → ℝ → Option Vec3
  | .box s => defaultLocalClosestPoint (boxLocalDistance s)
  | .cylinder c => defaultLocalClosestPoint (cylinderLocalDistance c)
  | .sphere rad => fun p _ => sphereLocalClosestPoint rad p

/-! ## Frame-aware query layer

`Spatial::space_to_space_matrix` lives outside src/ (spatial.rs); the
frame-aware operations are therefore parameterized by the reference-to-local
matrix it returns.  Modelled from the spec: the spatial bridge "given two
frames, returns the 4x4 transform mapping points/vectors from one into the
other", so the matrix is quantified over all 4x4 real matrices. -/

/-- A 4x4 real matrix, modelling glam `Mat4`; `M⁻¹` models `Mat4::inverse`. -/
abbrev Mat4 := Matrix (Fin 4) (Fin 4) ℝ

/-- glam `Mat4::transform_point3a`: multiply with homogeneous coordinate 1
(full affine transform, no perspective divide). -/
noncomputable def transformPoint3 (M : Mat4) (p : Vec3) : Vec3 :=
  ⟨M 0 0 * p.x + M 0 1 * p.y + M 0 2 * p.z + M 0 3,
   M 1 0 * p.x + M 1 1 * p.y + M 1 2 * p.z + M 1 3,
   M 2 0 * p.x + M 2 1 * p.y + M 2 2 * p.z + M 2 3⟩

/-- glam `Mat4::transform_vector3a`: multiply with homogeneous coordinate 0
(linear part only). -/
noncomputable def transformVector3 (M : Mat4) (v : Vec3) : Vec3 :=
  ⟨M 0 0 * v.x + M 0 1 * v.y + M 0 2 * v.z,
   M 1 0 * v.x + M 1 1 * v.y + M 1 2 * v.z,
   M 2 0 * v.x + M 2 1 * v.y + M 2 2 * v.z⟩

/-- The upper-left 3x3 (linear) part of a 4x4 matrix applied to a vector,
written from the spec's words "vectors (normal) via the linear part only". -/
noncomputable def linearApply (M : Mat4) (v : Vec3) : Vec3 :=
  ⟨M 0 0 * v.x + M 0 1 * v.y + M 0 2 * v.z,
   M 1 0 * v.x + M 1 1 * v.y + M 1 2 * v.z,
   M 2 0 * v.x + M 2 1 * v.y + M 2 2 * v.z⟩

/-- The translation column of a 4x4 affine matrix. -/
def translationOf (M : Mat4) : Vec3 := ⟨M 0 3, M 1 3, M 2 3⟩

/-- Full affine application, written from the spec's words "points
(closest_point) via the full affine transform": linear part plus
translation. -/
noncomputable def affineApply (M : Mat4) (p : Vec3) : Vec3 :=
  linearApply M p + translationOf M

/-- `FieldTrait::distance`: transform the query point into local space with the
reference-to-local matrix and return the local distance unchanged. -/
noncomputable def frameDistance (f : Field) (refToLocal : Mat4) (p : Vec3) : ℝ :=
  f.localDistance (transformPoint3 refToLocal p)

/-- `FieldTrait::normal`: transform the query point into local space, take the
local normal, and transform it back with `inverse().transform_vector3a`. -/
noncomputable def frameNormal (f : Field) (refToLocal : Mat4) (p : Vec3) (r : ℝ) : Option Vec3 :=
  (f.localNormal (transformPoint3 refToLocal p) r).map (transformVector3 refToLocal⁻¹)

/-- `FieldTrait::closest_point`: transform the query point into local space,
take the local closest point, and transform it back with
`inverse().transform_point3a`. -/
noncomputable def frameClosestPoint (f : Field) (refToLocal : Mat4) (p : Vec3) (r : ℝ) :
    Option Vec3 :=
  (f.localClosestPoint (transformPoint3 refToLocal p) r).map (transformPoint3 refToLocal⁻¹)

/-! ## Ray marcher -/

/-- `RayMarchResult` without the consumed ray (the ray is returned verbatim by
the source and carries no computed information). -/
structure RayMarchResult where
  distance : ℝ
  deepest_point_distance : ℝ
  ray_length : ℝ
  ray_steps : ℕ

/-- `MAX_RAY_STEPS = 1000`. -/
def MAX_RAY_STEPS : ℕ := 1000

/-- `MIN_RAY_MARCH = 0.001`. -/
noncomputable def MIN_RAY_MARCH : ℝ := 0.001

/-- `MAX_RAY_MARCH = f32::MAX`; the value of `f32::MAX` is `2^128 - 2^104`. -/
noncomputable def MAX_RAY_MARCH : ℝ := 2 ^ 128 - 2 ^ 104

/-- `MAX_RAY_LENGTH = 1000`. -/
noncomputable def MAX_RAY_LENGTH : ℝ := 1000

/-- Rust `f32::clamp(lo, hi)`: `min (max x lo) hi` (for `lo ≤ hi`). -/
noncomputable def clampR (x lo hi : ℝ) : ℝ := min (max x lo) hi

/-- The `while` loop of `ray_march`, in the field's local frame: loop while
`ray_steps < MAX_RAY_STEPS && ray_length < MAX_RAY_LENGTH`; each pass samples
the local distance, clamps it to `[MIN_RAY_MARCH, MAX_RAY_MARCH]`, advances the
point and the arc length by the clamped step, records the arc length when a new
minimum distance is observed, lowers the running minimum, and increments the
step counter. -/
noncomputable def rayMarchLoop (D : Vec3 → ℝ) (dir : Vec3) (point : Vec3)
    (res : RayMarchResult) : RayMarchResult :=
  if h : res.ray_steps < MAX_RAY_STEPS ∧ res.ray_length < MAX_RAY_LENGTH then
    let distance := D point
    let marchDistance := clampR distance MIN_RAY_MARCH MAX_RAY_MARCH
    let newLength := res.ray_length + marchDistance
    rayMarchLoop D dir (point + vecScale marchDistance dir)
      { distance := min distance res.distance
        deepest_point_distance :=
          if distance < res.distance then newLength else res.deepest_point_distance
        ray_length := newLength
        ray_steps := res.ray_steps + 1 }
  else res
termination_by MAX_RAY_STEPS - res.ray_steps
decreasing_by
  have := h.1
  omega

/-- `ray_march`: transform the ray's origin (point transform) and direction
(vector transform) once into the field's local frame, then run the loop from
the initial result `(f32::MAX, 0, 0, 0)`.  The ray-to-field matrix comes from
the external spatial bridge and is a parameter. -/
noncomputable def rayMarch (rayToFieldMatrix : Mat4) (origin direction : Vec3)
    (field : Field) : RayMarchResult :=
  let rayPoint := transformPoint3 rayToFieldMatrix origin
  let rayDirection := transformVector3 rayToFieldMatrix direction
  rayMarchLoop field.localDistance rayDirection rayPoint
    { distance := 2 ^ 128 - 2 ^ 104
      deepest_point_distance := 0
      ray_length := 0
      ray_steps := 0 }

/-! ## Node attachment and remote-call adapters

`core::Node`, its `OnceCell` slots and the flexbuffers reader are outside
src/; they are modelled from the spec as noted on each definition. -/

/-- Modelled from the spec: the scenegraph node (external `core::Node`) as seen
by this module — an optional spatial-frame slot and an optional field slot
("a node carries at most one field, set exactly once").  The spatial frame's
own content is irrelevant here, so it is a unit. -/
structure Node where
  spatial : Option Unit
  field : Option Field

/-- Modelled from the spec: `OnceCell::set` semantics for the node's field slot
— "set exactly once (first writer wins, subsequent attach attempts fail)"; the
source discards `set`'s result (`let _ = node.field.set(...)`). -/
def onceSet (slot : Option Field) (f : Field) : Option Field :=
  match slot with
  | none => some f
  | some g => some g

/-- `BoxField::add_to`: ensure the node has a spatial and no field, then build
the field and set it once.  Returns the outcome paired with the resulting node
(the input node unchanged on error). -/
def boxFieldAddTo (node : Node) (size : Vec3) : Except String Unit × Node :=
  if node.spatial.isSome = false then
    (.error "Internal: Node does not have a spatial attached!", node)
  else if node.field.isSome then
    (.error "Internal: Node already has a field attached!", node)
  else
    (.ok (), { node with field := onceSet node.field (Field.box size) })

/-- `CylinderField::add_to`: same preconditions as the box, installing a
cylinder field with the given length and radius. -/
def cylinderFieldAddTo (node : Node) (length radius : ℝ) : Except String Unit × Node :=
  if node.spatial.isSome = false then
    (.error "Internal: Node does not have a spatial attached!", node)
  else if node.field.isSome then
    (.error "Internal: Node already has a field attached!", node)
  else
    (.ok (), { node with field := onceSet node.field (Field.cylinder ⟨length, radius⟩) })

/-- `SphereField::add_to`: same preconditions, installing a sphere field. -/
def sphereFieldAddTo (node : Node) (radius : ℝ) : Except String Unit × Node :=
  if node.spatial.isSome = false then
    (.error "Internal: Node does not have a spatial attached!", node)
  else if node.field.isSome then
    (.error "Internal: Node already has a field attached!", node)
  else
    (.ok (), { node with field := onceSet node.field (Field.sphere radius) })

/-- Modelled from the spec: a decoded flexbuffers value ("compact,
self-describing, schema-less binary-encoded positional vectors or scalars" of
floats, 3-vectors, quaternions and strings). -/
inductive FlexVal where
  | null
  | str (s : String)
  | num (x : ℝ)
  | vec3 (v : Vec3)
  | quat (x y z w : ℝ)
  | arr (xs : List FlexVal)

/-- Modelled from the spec: flexbuffers `Reader::as_f32` is lossy — a
non-numeric value reads as 0. -/
def FlexVal.asF32 : FlexVal → ℝ
  | .num x => x
  | _ => 0

/-- flexbuffers `Reader::get_str`: fails on a non-string. -/
def FlexVal.getStr : FlexVal → Except String String
  | .str s => .ok s
  | _ => .error "string expected"

/-- flexbuffers `Reader::get_vector`: fails on a non-vector. -/
def FlexVal.getVector : FlexVal → Except String (List FlexVal)
  | .arr xs => .ok xs
  | _ => .error "vector expected"

/-- The `flex_to_vec3!` macro: `some` only on a 3-vector value. -/
def flexToVec3 : FlexVal → Option Vec3
  | .vec3 v => some v
  | _ => none

/-- The `flex_to_quat!` macro: `some` only on a quaternion value. -/
def flexToQuat : FlexVal → Option (ℝ × ℝ × ℝ × ℝ)
  | .quat x y z w => some (x, y, z, w)
  | _ => none

/-- flexbuffers vector indexing `idx(i)`: out-of-range reads a null/default
value. -/
def flexIdx (xs : List FlexVal) (i : ℕ) : FlexVal := xs.getD i .null

/-- `BoxField::set_size_flex`: decode the size (error "Size is invalid" when
not a 3-vector), then `node.field.get().unwrap()` — `none` models the panic on
a field-less node — and update the size only when the field is a box. -/
def setSizeFlexBox (node : Node) (data : FlexVal) : Option (Except String Unit × Node) :=
  match flexToVec3 data with
  | none => some (.error "Size is invalid", node)
  | some size =>
    match node.field with
    | none => none
    | some (Field.box _) => some (.ok (), { node with field := some (Field.box size) })
    | some _ => some (.ok (), node)

/-- `CylinderField::set_size_flex`: read the root as a vector (failing
otherwise), take `idx(0).as_f32()` and `idx(1).as_f32()` as length and radius,
then unwrap the field (`none` models the panic) and update only when it is a
cylinder. -/
def setSizeFlexCylinder (node : Node) (data : FlexVal) : Option (Except String Unit × Node) :=
  match data.getVector with
  | .error e => some (.error e, node)
  | .ok xs =>
    let length := (flexIdx xs 0).asF32
    let radius := (flexIdx xs 1).asF32
    match node.field with
    | none => none
    | some (Field.cylinder _) =>
      some (.ok (), { node with field := some (Field.cylinder ⟨length, radius⟩) })
    | some _ => some (.ok (), node)

/-- `SphereField::set_radius_flex`: unwrap the field (`none` models the panic)
and, only when it is a sphere, store `root.as_f32()` as the radius. -/
def setRadiusFlexSphere (node : Node) (data : FlexVal) : Option (Except String Unit × Node) :=
  match node.field with
  | none => none
  | some (Field.sphere _) =>
    some (.ok (), { node with field := some (Field.sphere data.asF32) })
  | some _ => some (.ok (), node)

/-- `create_cylinder_field_flex`, modelling the argument decoding and the
`(length, radius)` pair handed to `CylinderField::add_to`; node creation,
parent-frame resolution and spatial attachment are external.  The source takes
the name from `idx(0).get_str()`, the parent id from `idx(1).get_str()`, the
rotation from `idx(3)`, the position from `idx(2)`, and then reads `length =
idx(0).as_f32()` and `radius = idx(1).as_f32()`. -/
def createCylinderFieldFlex (args : List FlexVal) : Except String (ℝ × ℝ) := do
  let _name ← (flexIdx args 0).getStr
  let _parent ← (flexIdx args 1).getStr
  let _rotation ← match flexToQuat (flexIdx args 3) with
    | some q => Except.ok q
    | none => Except.error "Rotation not found"
  let _position ← match flexToVec3 (flexIdx args 2) with
    | some v => Except.ok v
    | none => Except.error "Position not found"
  let length := (flexIdx args 0).asF32
  let radius := (flexIdx args 1).asF32
  return (length, radius)

/-- Modelled from the spec: `createCylinderField(name, parent_frame_id,
position, rotation, length, radius)` — the length and radius are the fifth and
sixth positional arguments. -/
def specCylinderLengthRadius (args : List FlexVal) : ℝ × ℝ :=
  ((flexIdx args 4).asF32, (flexIdx args 5).asF32)

/-- The cylinder distance formula written from the spec's words: `d =
(|xy-projection of point| - length, |z of point| - length*0.5)`; result =
`min(max(d.x,d.y),0) + (length(d) if d.x>=0 and d.y>=0 else 0)` — with the
`length` parameter consumed where a true cylinder SDF would consume
`radius`. -/
noncomputable def specCylinderDistanceFormula (length : ℝ) (p : Vec3) : ℝ :=
  let dx := len2 p.x p.y - length
  let dy := |p.z| - length * 0.5
  min (max dx dy) 0 + (if 0 ≤ dx ∧ 0 ≤ dy then len2 dx dy else 0)

/-- A well-formed `createCylinderField` argument vector per the documented
signature: name "cyl", parent "/", position `(0,0,0)`, identity rotation,
length 2, radius 0.5. -/
def cylArgs : List FlexVal :=
  [.str "cyl", .str "/", .vec3 ⟨0, 0, 0⟩, .quat 0 0 0 1, .num 2, .num 0.5]

/-! ## Helper lemmas -/

theorem sqrt_eval {a b : ℝ} (hb : 0 ≤ b) (h : b ^ 2 = a) : Real.sqrt a = b := by
  rw [← h]
  exact Real.sqrt_sq hb

@[simp] theorem vec3_neg (v : Vec3) : -v = ⟨-v.x, -v.y, -v.z⟩ := rfl

@[simp] theorem vec3_add (a b : Vec3) : a + b = ⟨a.x + b.x, a.y + b.y, a.z + b.z⟩ := rfl

@[simp] theorem vec3_sub (a b : Vec3) : a - b = ⟨a.x - b.x, a.y - b.y, a.z - b.z⟩ := rfl

theorem vec3_length_eval {x y z b : ℝ} (hb : 0 ≤ b) (h : b ^ 2 = x ^ 2 + y ^ 2 + z ^ 2) :
    Vec3.length ⟨x, y, z⟩ = b := by
  simp only [Vec3.length]
  exact sqrt_eval hb h

theorem boxLD_222_at_10 : boxLocalDistance ⟨2, 2, 2⟩ ⟨10, 0, 0⟩ = 9 := by
  simp only [boxLocalDistance, abs_zero, show |(10:ℝ)| = 10 from abs_of_nonneg (by norm_num)]
  norm_num [max_def, min_def]
  exact vec3_length_eval (by norm_num) (by norm_num)

theorem boxLD_222_at_1x : boxLocalDistance ⟨2, 2, 2⟩ ⟨1, 0, 0⟩ = 0 := by
  simp only [boxLocalDistance, abs_zero, abs_one]
  norm_num [max_def, min_def]
  exact vec3_length_eval (by norm_num) (by norm_num)

theorem boxLD_222_at_1y : boxLocalDistance ⟨2, 2, 2⟩ ⟨0, 1, 0⟩ = 0 := by
  simp only [boxLocalDistance, abs_zero, abs_one]
  norm_num [max_def, min_def]
  exact vec3_length_eval (by norm_num) (by norm_num)

theorem boxLD_222_at_1z : boxLocalDistance ⟨2, 2, 2⟩ ⟨0, 0, 1⟩ = 0 := by
  simp only [boxLocalDistance, abs_zero, abs_one]
  norm_num [max_def, min_def]
  exact vec3_length_eval (by norm_num) (by norm_num)

theorem boxLD_222_at_11 : boxLocalDistance ⟨2, 2, 2⟩ ⟨11, 0, 0⟩ = 10 := by
  simp only [boxLocalDistance, abs_zero, show |(11:ℝ)| = 11 from abs_of_nonneg (by norm_num)]
  norm_num [max_def, min_def]
  exact vec3_length_eval (by norm_num) (by norm_num)

theorem boxLD_222_at_10_1y : boxLocalDistance ⟨2, 2, 2⟩ ⟨10, 1, 0⟩ = 9 := by
  simp only [boxLocalDistance, abs_zero, abs_one,
    show |(10:ℝ)| = 10 from abs_of_nonneg (by norm_num)]
  norm_num [max_def, min_def]
  exact vec3_length_eval (by norm_num) (by norm_num)

theorem boxLD_222_at_10_1z : boxLocalDistance ⟨2, 2, 2⟩ ⟨10, 0, 1⟩ = 9 := by
  simp only [boxLocalDistance, abs_zero, abs_one,
    show |(10:ℝ)| = 10 from abs_of_nonneg (by norm_num)]
  norm_num [max_def, min_def]
  exact vec3_length_eval (by norm_num) (by norm_num)

theorem boxLD_222_at_origin : boxLocalDistance ⟨2, 2, 2⟩ ⟨0, 0, 0⟩ = -1 := by
  simp only [boxLocalDistance, abs_zero]
  norm_num [max_def, min_def]
  exact vec3_length_eval (by norm_num) (by norm_num)

theorem boxLD_222_at_2x : boxLocalDistance ⟨2, 2, 2⟩ ⟨2, 0, 0⟩ = 1 := by
  simp only [boxLocalDistance, abs_zero, show |(2:ℝ)| = 2 from abs_of_nonneg (by norm_num)]
  norm_num [max_def, min_def]
  exact vec3_length_eval (by norm_num) (by norm_num)

/-- When the query point is inside the (nonneg-extent) box on every axis, the
`max (…, 0)` vector is zero and the distance reduces to the inner min/max
expression. -/
theorem boxLocalDistance_core (s p : Vec3)
    (h1 : |p.x| - s.x * 0.5 ≤ 0) (h2 : |p.y| - s.y * 0.5 ≤ 0) (h3 : |p.z| - s.z * 0.5 ≤ 0) :
    boxLocalDistance s p =
      min (max (|p.x| - s.x * 0.5) (max (|p.y| - s.y * 0.5) (|p.z| - s.z * 0.5))) 0 := by
  simp only [boxLocalDistance]
  rw [max_eq_right h1, max_eq_right h2, max_eq_right h3,
    show Vec3.length ⟨0, 0, 0⟩ = 0 from vec3_length_eval le_rfl (by norm_num)]
  ring

theorem min_half_half (a b : ℝ) : min (a / 2) (b / 2) = min a b / 2 := by
  rcases le_total a b with h | h
  · rw [min_eq_left h, min_eq_left (by linarith)]
  · rw [min_eq_right h, min_eq_right (by linarith)]

theorem max_neg_neg_min (a b : ℝ) : max (-a) (-b) = -(min a b) := by
  rcases le_total a b with h | h
  · rw [min_eq_left h, max_eq_left (by linarith)]
  · rw [min_eq_right h, max_eq_right (by linarith)]

theorem box_face_center_x (s : Vec3) (hy : 0 ≤ s.y) (hz : 0 ≤ s.z) {e : ℝ}
    (he : |e| = s.x * 0.5) :
    boxLocalDistance s ⟨e, 0, 0⟩ = 0 := by
  rw [boxLocalDistance_core s ⟨e, 0, 0⟩ (by simp only [he]; linarith)
    (by simp only [abs_zero]; linarith) (by simp only [abs_zero]; linarith)]
  simp only [he, abs_zero, sub_self, zero_sub]
  have h23 : max (-(s.y * 0.5)) (-(s.z * 0.5)) ≤ 0 := max_le (by linarith) (by linarith)
  rw [max_eq_left h23, min_self]

theorem box_face_center_y (s : Vec3) (hx : 0 ≤ s.x) (hz : 0 ≤ s.z) {e : ℝ}
    (he : |e| = s.y * 0.5) :
    boxLocalDistance s ⟨0, e, 0⟩ = 0 := by
  rw [boxLocalDistance_core s ⟨0, e, 0⟩ (by simp only [abs_zero]; linarith)
    (by simp only [he]; linarith) (by simp only [abs_zero]; linarith)]
  simp only [he, abs_zero, sub_self, zero_sub]
  have hz3 : -(s.z * 0.5) ≤ 0 := by linarith
  rw [max_eq_left hz3, max_eq_right (by linarith : -(s.x * 0.5) ≤ 0), min_self]

theorem box_face_center_z (s : Vec3) (hx : 0 ≤ s.x) (hy : 0 ≤ s.y) {e : ℝ}
    (he : |e| = s.z * 0.5) :
    boxLocalDistance s ⟨0, 0, e⟩ = 0 := by
  rw [boxLocalDistance_core s ⟨0, 0, e⟩ (by simp only [abs_zero]; linarith)
    (by simp only [abs_zero]; linarith) (by simp only [he]; linarith)]
  simp only [he, abs_zero, sub_self, zero_sub]
  rw [max_eq_right (by linarith : -(s.y * 0.5) ≤ 0),
    max_eq_right (by linarith : -(s.x * 0.5) ≤ 0), min_self]

/-! ## Claim theorems -/

/-- C1: the claim fails on the code — the default `local_normal` samples
`local_distance` at the raw axis points `(r,0,0)`, `(0,r,0)`, `(0,0,r)`
instead of at `p` offset by `r` along each axis.  On `Box(size=(2,2,2))` at
`p = (10,0,0)` with `epsilon = 1`, the claimed offset-gradient method yields
exactly `(-1,0,0)`, while the code's default (which `Field` dispatch uses for
the box kind) yields a different vector (all components positive). -/
theorem default_local_normal_is_not_offset_gradient :
    specLocalNormal (boxLocalDistance ⟨2, 2, 2⟩) ⟨10, 0, 0⟩ 1 = some ⟨-1, 0, 0⟩ ∧
    defaultLocalNormal (boxLocalDistance ⟨2, 2, 2⟩) ⟨10, 0, 0⟩ 1 ≠
      specLocalNormal (boxLocalDistance ⟨2, 2, 2⟩) ⟨10, 0, 0⟩ 1 ∧
    Field.localNormal (.box ⟨2, 2, 2⟩) ⟨10, 0, 0⟩ 1 =
      defaultLocalNormal (boxLocalDistance ⟨2, 2, 2⟩) ⟨10, 0, 0⟩ 1 := by
  have hspec : specLocalNormal (boxLocalDistance ⟨2, 2, 2⟩) ⟨10, 0, 0⟩ 1 = some ⟨-1, 0, 0⟩ := by
    have hl : Vec3.length ⟨-1, 0, 0⟩ = 1 := vec3_length_eval (by norm_num) (by norm_num)
    simp only [specLocalNormal, vec3_add]
    norm_num
    rw [boxLD_222_at_10, boxLD_222_at_11, boxLD_222_at_10_1y, boxLD_222_at_10_1z]
    norm_num [normalizeF, hl, vecScale, Vec3.mk.injEq]
  have hcode : defaultLocalNormal (boxLocalDistance ⟨2, 2, 2⟩) ⟨10, 0, 0⟩ 1 =
      some (vecScale (Real.sqrt 243)⁻¹ ⟨9, 9, 9⟩) := by
    have hl : Vec3.length ⟨9, 9, 9⟩ = Real.sqrt 243 := by
      simp only [Vec3.length]
      norm_num
    simp only [defaultLocalNormal]
    rw [boxLD_222_at_10, boxLD_222_at_1x, boxLD_222_at_1y, boxLD_222_at_1z]
    norm_num [normalizeF, hl, Real.sqrt_ne_zero'.mpr (show (0:ℝ) < 243 by norm_num)]
  refine ⟨hspec, ?_, rfl⟩
  rw [hspec, hcode]
  simp only [Option.some.injEq, vecScale, Vec3.mk.injEq, ne_eq]
  intro hEq
  have h1 : (Real.sqrt 243)⁻¹ * 9 = -1 := hEq.1
  have h2 : 0 ≤ (Real.sqrt 243)⁻¹ * 9 := by positivity
  linarith

/-- C9: a normal query can produce a non-finite result — Sphere's
`local_normal` at the sphere's center normalizes the zero-length vector
`p = origin` (whose length is 0) without any guard, yielding a non-finite
vector (`none` in the embedding) rather than failing. -/
theorem sphere_normal_at_center_nonfinite :
    Field.localNormal (.sphere 5) ⟨0, 0, 0⟩ 0.001 = none ∧
    Vec3.length ⟨0, 0, 0⟩ = 0 := by
  have h0 : Vec3.length ⟨0, 0, 0⟩ = 0 := vec3_length_eval le_rfl (by norm_num)
  exact ⟨by simp [Field.localNormal, sphereLocalNormal, normalizeF, h0], h0⟩

/-- C6: for every point `p` and radius `r`, `Sphere(r).local_distance(p)` is
`|p| - r`; concretely, `Sphere(5)` at local query point `(10,0,0)` has
distance 5, normal `(-1,0,0)` (inward, `-normalize(p)`) and closest point
`(5,0,0)` (`normalize(p) * radius`). -/
theorem sphere_distance_formula_and_scenario :
    (∀ (rad : ℝ) (p : Vec3), sphereLocalDistance rad p = p.length - rad) ∧
    sphereLocalDistance 5 ⟨10, 0, 0⟩ = 5 ∧
    Field.localNormal (.sphere 5) ⟨10, 0, 0⟩ 0.001 = some ⟨-1, 0, 0⟩ ∧
    Field.localClosestPoint (.sphere 5) ⟨10, 0, 0⟩ 0.001 = some ⟨5, 0, 0⟩ := by
  have hlen : Vec3.length ⟨10, 0, 0⟩ = 10 := vec3_length_eval (by norm_num) (by norm_num)
  refine ⟨fun rad p => rfl, ?_, ?_, ?_⟩
  · simp only [sphereLocalDistance, hlen]
    norm_num
  · simp only [Field.localNormal, sphereLocalNormal, normalizeF, hlen]
    norm_num [vecScale, Vec3.mk.injEq]
  · simp only [Field.localClosestPoint, sphereLocalClosestPoint, normalizeF, hlen]
    norm_num [vecScale, Vec3.mk.injEq]

/-- C3: for every point `p`, the Cylinder field's `local_distance` computes
exactly the spec formula `d = (|xy-projection of p| - length, |z of p| -
length*0.5)`, `min(max(d.x,d.y),0) + (length(d) if d.x>=0 and d.y>=0 else 0)`,
consuming the `length` parameter where a true cylinder SDF would consume
`radius`; the `radius` parameter never influences the returned distance. -/
theorem cylinder_distance_formula_and_radius_unused (len rad rad₂ : ℝ) (p : Vec3) :
    cylinderLocalDistance ⟨len, rad⟩ p = specCylinderDistanceFormula len p ∧
    cylinderLocalDistance ⟨len, rad⟩ p = cylinderLocalDistance ⟨len, rad₂⟩ p := by
  have habs : |len2 p.x p.y| = len2 p.x p.y := abs_of_nonneg (Real.sqrt_nonneg _)
  exact ⟨by simp only [cylinderLocalDistance, specCylinderDistanceFormula, habs], rfl⟩

/-- C5: for every field, reference-to-local matrix, point and epsilon, the
frame-aware `distance` returns the local distance of the affinely transformed
point unchanged (no rescaling), `normal` transforms the local normal back by
the inverse matrix applied through the linear part only, and `closest_point`
transforms the local closest point back by the inverse applied as a full
affine point transform. -/
theorem frame_ops_follow_spec (f : Field) (M : Mat4) (p : Vec3) (r : ℝ) :
    frameDistance f M p = f.localDistance (affineApply M p) ∧
    frameNormal f M p r = (f.localNormal (affineApply M p) r).map (linearApply M⁻¹) ∧
    frameClosestPoint f M p r =
      (f.localClosestPoint (affineApply M p) r).map (affineApply M⁻¹) := by
  have hpt : ∀ (N : Mat4) (q : Vec3), transformPoint3 N q = affineApply N q := by
    intro N q
    simp only [affineApply, linearApply, translationOf, transformPoint3, vec3_add]
  have hvec : transformVector3 (M⁻¹) = linearApply (M⁻¹) := rfl
  refine ⟨?_, ?_, ?_⟩
  · rw [frameDistance, hpt]
  · rw [frameNormal, hpt, hvec]
  · rw [frameClosestPoint, hpt]
    congr 1

/-- C2: `create_cylinder_field_flex` decodes the cylinder's length and radius
from the first and second positional arguments (the name and parent-id
strings, which read as 0 through the lossy `as_f32`), not from the fifth and
sixth arguments as the documented signature `createCylinderField(name,
parent_frame_id, position, rotation, length, radius)` states: on a well-formed
call with length 2 and radius 0.5 the created field gets length 0 and radius
0. -/
theorem create_cylinder_field_reads_wrong_argument_slots :
    createCylinderFieldFlex cylArgs = .ok (0, 0) ∧
    specCylinderLengthRadius cylArgs = (2, 0.5) ∧
    ((0 : ℝ), (0 : ℝ)) ≠ ((2 : ℝ), (0.5 : ℝ)) := by
  refine ⟨rfl, rfl, ?_⟩
  norm_num [Prod.ext_iff]

/-- C7 counterexample: the claim quantifies over every extent vector, but for
`s = (-6,-8,2)` (negative extents are not rejected anywhere) the box distance
at the origin is 5, while `-min(s.x,s.y,s.z)/2 = 4`. -/
theorem box_origin_distance_counterexample :
    boxLocalDistance ⟨-6, -8, 2⟩ ⟨0, 0, 0⟩ = 5 ∧
    -(min (-6 : ℝ) (min (-8) 2)) / 2 = 4 ∧
    (5 : ℝ) ≠ 4 := by
  refine ⟨?_, by norm_num [min_def], by norm_num⟩
  simp only [boxLocalDistance, abs_zero]
  norm_num [max_def, min_def]
  exact vec3_length_eval (by norm_num) (by norm_num)

/-- C7 (amended): for every extent vector `s` with nonnegative components,
`Box(s).local_distance(origin) = -min(s.x,s.y,s.z)/2` and the distance is
exactly 0 at each of the six face centers; in particular for
`Box(size=(2,2,2))`, the distance is -1 at the origin, 1 at `(2,0,0)` and 0 at
`(1,0,0)`. -/
theorem box_origin_and_face_centers (s : Vec3)
    (hx : 0 ≤ s.x) (hy : 0 ≤ s.y) (hz : 0 ≤ s.z) :
    boxLocalDistance s ⟨0, 0, 0⟩ = -(min s.x (min s.y s.z)) / 2 ∧
    boxLocalDistance s ⟨s.x / 2, 0, 0⟩ = 0 ∧
    boxLocalDistance s ⟨-(s.x / 2), 0, 0⟩ = 0 ∧
    boxLocalDistance s ⟨0, s.y / 2, 0⟩ = 0 ∧
    boxLocalDistance s ⟨0, -(s.y / 2), 0⟩ = 0 ∧
    boxLocalDistance s ⟨0, 0, s.z / 2⟩ = 0 ∧
    boxLocalDistance s ⟨0, 0, -(s.z / 2)⟩ = 0 ∧
    boxLocalDistance ⟨2, 2, 2⟩ ⟨0, 0, 0⟩ = -1 ∧
    boxLocalDistance ⟨2, 2, 2⟩ ⟨2, 0, 0⟩ = 1 ∧
    boxLocalDistance ⟨2, 2, 2⟩ ⟨1, 0, 0⟩ = 0 := by
  have habs_pos : ∀ a : ℝ, 0 ≤ a → |a / 2| = a * 0.5 := by
    intro a ha
    rw [abs_of_nonneg (by linarith)]
    ring
  have habs_neg : ∀ a : ℝ, 0 ≤ a → |-(a / 2)| = a * 0.5 := by
    intro a ha
    rw [abs_neg, abs_of_nonneg (by linarith)]
    ring
  refine ⟨?_, box_face_center_x s hy hz (habs_pos s.x hx),
    box_face_center_x s hy hz (habs_neg s.x hx),
    box_face_center_y s hx hz (habs_pos s.y hy),
    box_face_center_y s hx hz (habs_neg s.y hy),
    box_face_center_z s hx hy (habs_pos s.z hz),
    box_face_center_z s hx hy (habs_neg s.z hz),
    boxLD_222_at_origin, boxLD_222_at_2x, boxLD_222_at_1x⟩
  rw [boxLocalDistance_core s ⟨0, 0, 0⟩ (by simp only [abs_zero]; linarith)
    (by simp only [abs_zero]; linarith) (by simp only [abs_zero]; linarith)]
  simp only [abs_zero, zero_sub]
  rw [max_neg_neg_min, max_neg_neg_min]
  have hM : 0 ≤ min (s.x * 0.5) (min (s.y * 0.5) (s.z * 0.5)) :=
    le_min (by linarith) (le_min (by linarith) (by linarith))
  rw [min_eq_left (neg_nonpos.mpr hM)]
  rw [show s.x * 0.5 = s.x / 2 by ring, show s.y * 0.5 = s.y / 2 by ring,
    show s.z * 0.5 = s.z / 2 by ring, min_half_half, min_half_half, neg_div]

/-- Witness for `box_origin_and_face_centers` at `s = (2,4,6)`. -/
theorem box_origin_and_face_centers_witness :
    boxLocalDistance ⟨2, 4, 6⟩ ⟨0, 0, 0⟩ = -(min 2 (min 4 6)) / 2 ∧
    boxLocalDistance ⟨2, 4, 6⟩ ⟨2 / 2, 0, 0⟩ = 0 ∧
    boxLocalDistance ⟨2, 4, 6⟩ ⟨-(2 / 2), 0, 0⟩ = 0 ∧
    boxLocalDistance ⟨2, 4, 6⟩ ⟨0, 4 / 2, 0⟩ = 0 ∧
    boxLocalDistance ⟨2, 4, 6⟩ ⟨0, -(4 / 2), 0⟩ = 0 ∧
    boxLocalDistance ⟨2, 4, 6⟩ ⟨0, 0, 6 / 2⟩ = 0 ∧
    boxLocalDistance ⟨2, 4, 6⟩ ⟨0, 0, -(6 / 2)⟩ = 0 ∧
    boxLocalDistance ⟨2, 2, 2⟩ ⟨0, 0, 0⟩ = -1 ∧
    boxLocalDistance ⟨2, 2, 2⟩ ⟨2, 0, 0⟩ = 1 ∧
    boxLocalDistance ⟨2, 2, 2⟩ ⟨1, 0, 0⟩ = 0 :=
  box_origin_and_face_centers ⟨2, 4, 6⟩ (by norm_num) (by norm_num) (by norm_num)

theorem clampR_ge_min (x : ℝ) : MIN_RAY_MARCH ≤ clampR x MIN_RAY_MARCH MAX_RAY_MARCH := by
  have h1 : MIN_RAY_MARCH ≤ max x MIN_RAY_MARCH := le_max_right _ _
  have h2 : MIN_RAY_MARCH ≤ MAX_RAY_MARCH := by
    rw [MIN_RAY_MARCH, MAX_RAY_MARCH]
    norm_num
  exact le_min h1 h2

theorem rayMarchLoop_budget (D : Vec3 → ℝ) (dir : Vec3) :
    ∀ (n : ℕ) (point : Vec3) (res : RayMarchResult),
      MAX_RAY_STEPS - res.ray_steps = n →
      res.ray_steps ≤ MAX_RAY_STEPS →
      MIN_RAY_MARCH * (res.ray_steps : ℝ) ≤ res.ray_length →
      ((rayMarchLoop D dir point res).ray_steps = MAX_RAY_STEPS ∨
        MAX_RAY_LENGTH ≤ (rayMarchLoop D dir point res).ray_length) ∧
      (rayMarchLoop D dir point res).ray_steps ≤ MAX_RAY_STEPS ∧
      MIN_RAY_MARCH * ((rayMarchLoop D dir point res).ray_steps : ℝ) ≤
        (rayMarchLoop D dir point res).ray_length := by
  intro n
  induction n with
  | zero =>
    intro point res hn hle hlen
    have hsteps : res.ray_steps = MAX_RAY_STEPS := by omega
    rw [rayMarchLoop.eq_def, dif_neg (by simp [hsteps])]
    exact ⟨Or.inl hsteps, hle, hlen⟩
  | succ m ih =>
    intro point res hn hle hlen
    by_cases h : res.ray_steps < MAX_RAY_STEPS ∧ res.ray_length < MAX_RAY_LENGTH
    · rw [rayMarchLoop.eq_def, dif_pos h]
      have hclamp := clampR_ge_min (D point)
      refine ih (point + vecScale (clampR (D point) MIN_RAY_MARCH MAX_RAY_MARCH) dir)
        { distance := min (D point) res.distance
          deepest_point_distance :=
            if D point < res.distance then
              res.ray_length + clampR (D point) MIN_RAY_MARCH MAX_RAY_MARCH
            else res.deepest_point_distance
          ray_length := res.ray_length + clampR (D point) MIN_RAY_MARCH MAX_RAY_MARCH
          ray_steps := res.ray_steps + 1 } ?_ ?_ ?_
      · simp only
        omega
      · simp only
        omega
      · simp only
        push_cast
        linarith
    · rw [rayMarchLoop.eq_def, dif_neg h]
      rcases Nat.lt_or_ge res.ray_steps MAX_RAY_STEPS with hs | hs
      · rcases not_and_or.mp h with hbad | hlenex
        · exact absurd hs hbad
        · exact ⟨Or.inr (le_of_not_lt hlenex), hle, hlen⟩
      · have hsteps : res.ray_steps = MAX_RAY_STEPS := le_antisymm hle hs
        exact ⟨Or.inl hsteps, hle, hlen⟩

/-- C4: for every ray (any ray-to-field matrix, origin and direction) and
every field, `ray_march` performs exactly `MAX_RAY_STEPS = 1000` iterations,
or stops in fewer only once the accumulated arc length has reached
`MAX_RAY_LENGTH = 1000`; it has no other exit (in particular none on a
near-zero or negative distance), and every iteration advances the arc length
by `clamp(d, 0.001, f32::MAX) ≥ 0.001`, so the final arc length is at least
`0.001` times the number of steps taken. -/
theorem ray_march_respects_budget_only (M : Mat4) (origin direction : Vec3) (f : Field) :
    ((rayMarch M origin direction f).ray_steps = MAX_RAY_STEPS ∨
      MAX_RAY_LENGTH ≤ (rayMarch M origin direction f).ray_length) ∧
    (rayMarch M origin direction f).ray_steps ≤ MAX_RAY_STEPS ∧
    MIN_RAY_MARCH * ((rayMarch M origin direction f).ray_steps : ℝ) ≤
      (rayMarch M origin direction f).ray_length := by
  simp only [rayMarch]
  exact rayMarchLoop_budget f.localDistance (transformVector3 M direction) MAX_RAY_STEPS
    (transformPoint3 M origin)
    { distance := 2 ^ 128 - 2 ^ 104
      deepest_point_distance := 0
      ray_length := 0
      ray_steps := 0 }
    rfl (Nat.zero_le _) (by norm_num)

/-- C8: for every node and every field kind's `add_to` constructor, creation
fails when the node lacks a spatial frame or already owns a field, leaving the
node (in particular its field slot) unchanged; when the preconditions hold the
field is installed through the set-once slot; and the kind chosen at
construction never changes under any of the three mutation handlers. -/
theorem field_add_to_atomic_preconditions :
    (∀ (n : Node) (size : Vec3), n.spatial = none ∨ n.field ≠ none →
      ∃ e, boxFieldAddTo n size = (.error e, n)) ∧
    (∀ (n : Node) (len rad : ℝ), n.spatial = none ∨ n.field ≠ none →
      ∃ e, cylinderFieldAddTo n len rad = (.error e, n)) ∧
    (∀ (n : Node) (rad : ℝ), n.spatial = none ∨ n.field ≠ none →
      ∃ e, sphereFieldAddTo n rad = (.error e, n)) ∧
    (∀ (n : Node) (size : Vec3), n.spatial ≠ none → n.field = none →
      boxFieldAddTo n size = (.ok (), { n with field := some (.box size) })) ∧
    (∀ (n : Node) (len rad : ℝ), n.spatial ≠ none → n.field = none →
      cylinderFieldAddTo n len rad =
        (.ok (), { n with field := some (.cylinder ⟨len, rad⟩) })) ∧
    (∀ (n : Node) (rad : ℝ), n.spatial ≠ none → n.field = none →
      sphereFieldAddTo n rad = (.ok (), { n with field := some (.sphere rad) })) ∧
    (∀ (n n₂ : Node) (data : FlexVal) (res : Except String Unit),
      setSizeFlexBox n data = some (res, n₂) →
      Option.map Field.kind n₂.field = Option.map Field.kind n.field) ∧
    (∀ (n n₂ : Node) (data : FlexVal) (res : Except String Unit),
      setSizeFlexCylinder n data = some (res, n₂) →
      Option.map Field.kind n₂.field = Option.map Field.kind n.field) ∧
    (∀ (n n₂ : Node) (data : FlexVal) (res : Except String Unit),
      setRadiusFlexSphere n data = some (res, n₂) →
      Option.map Field.kind n₂.field = Option.map Field.kind n.field) := by
  have fail_box : ∀ (n : Node) (size : Vec3), n.spatial = none ∨ n.field ≠ none →
      ∃ e, boxFieldAddTo n size = (.error e, n) := by
    intro n size h
    rcases hsp : n.spatial with _ | u
    · exact ⟨"Internal: Node does not have a spatial attached!", by simp [boxFieldAddTo, hsp]⟩
    · rcases h with h | h
      · rw [hsp] at h
        exact absurd h (by simp)
      · have hf : n.field.isSome = true := Option.ne_none_iff_isSome.mp h
        exact ⟨"Internal: Node already has a field attached!", by simp [boxFieldAddTo, hsp, hf]⟩
  have fail_cyl : ∀ (n : Node) (len rad : ℝ), n.spatial = none ∨ n.field ≠ none →
      ∃ e, cylinderFieldAddTo n len rad = (.error e, n) := by
    intro n len rad h
    rcases hsp : n.spatial with _ | u
    · exact ⟨"Internal: Node does not have a spatial attached!",
        by simp [cylinderFieldAddTo, hsp]⟩
    · rcases h with h | h
      · rw [hsp] at h
        exact absurd h (by simp)
      · have hf : n.field.isSome = true := Option.ne_none_iff_isSome.mp h
        exact ⟨"Internal: Node already has a field attached!",
          by simp [cylinderFieldAddTo, hsp, hf]⟩
  have fail_sph : ∀ (n : Node) (rad : ℝ), n.spatial = none ∨ n.field ≠ none →
      ∃ e, sphereFieldAddTo n rad = (.error e, n) := by
    intro n rad h
    rcases hsp : n.spatial with _ | u
    · exact ⟨"Internal: Node does not have a spatial attached!",
        by simp [sphereFieldAddTo, hsp]⟩
    · rcases h with h | h
      · rw [hsp] at h
        exact absurd h (by simp)
      · have hf : n.field.isSome = true := Option.ne_none_iff_isSome.mp h
        exact ⟨"Internal: Node already has a field attached!",
          by simp [sphereFieldAddTo, hsp, hf]⟩
  have ok_box : ∀ (n : Node) (size : Vec3), n.spatial ≠ none → n.field = none →
      boxFieldAddTo n size = (.ok (), { n with field := some (.box size) }) := by
    intro n size hs hf
    have hsp : n.spatial.isSome = true := Option.ne_none_iff_isSome.mp hs
    simp [boxFieldAddTo, hsp, hf, onceSet]
  have ok_cyl : ∀ (n : Node) (len rad : ℝ), n.spatial ≠ none → n.field = none →
      cylinderFieldAddTo n len rad =
        (.ok (), { n with field := some (.cylinder ⟨len, rad⟩) }) := by
    intro n len rad hs hf
    have hsp : n.spatial.isSome = true := Option.ne_none_iff_isSome.mp hs
    simp [cylinderFieldAddTo, hsp, hf, onceSet]
  have ok_sph : ∀ (n : Node) (rad : ℝ), n.spatial ≠ none → n.field = none →
      sphereFieldAddTo n rad = (.ok (), { n with field := some (.sphere rad) }) := by
    intro n rad hs hf
    have hsp : n.spatial.isSome = true := Option.ne_none_iff_isSome.mp hs
    simp [sphereFieldAddTo, hsp, hf, onceSet]
  have keep_box : ∀ (n n₂ : Node) (data : FlexVal) (res : Except String Unit),
      setSizeFlexBox n data = some (res, n₂) →
      Option.map Field.kind n₂.field = Option.map Field.kind n.field := by
    intro n n₂ data res h
    rcases hv : flexToVec3 data with _ | size
    · simp only [setSizeFlexBox, hv, Option.some.injEq, Prod.mk.injEq] at h
      rw [← h.2]
    · rcases hf : n.field with _ | f
      · simp only [setSizeFlexBox, hv, hf] at h
        exact Option.noConfusion h
      · cases f with
        | box s =>
          simp only [setSizeFlexBox, hv, hf, Option.some.injEq, Prod.mk.injEq] at h
          rw [← h.2]
          simp [Field.kind, hf]
        | cylinder c =>
          simp only [setSizeFlexBox, hv, hf, Option.some.injEq, Prod.mk.injEq] at h
          rw [← h.2, hf]
        | sphere r =>
          simp only [setSizeFlexBox, hv, hf, Option.some.injEq, Prod.mk.injEq] at h
          rw [← h.2, hf]
  have keep_cyl : ∀ (n n₂ : Node) (data : FlexVal) (res : Except String Unit),
      setSizeFlexCylinder n data = some (res, n₂) →
      Option.map Field.kind n₂.field = Option.map Field.kind n.field := by
    intro n n₂ data res h
    rcases hv : data.getVector with e | xs
    · simp only [setSizeFlexCylinder, hv, Option.some.injEq, Prod.mk.injEq] at h
      rw [← h.2]
    · rcases hf : n.field with _ | f
      · simp only [setSizeFlexCylinder, hv, hf] at h
        exact Option.noConfusion h
      · cases f with
        | box s =>
          simp only [setSizeFlexCylinder, hv, hf, Option.some.injEq, Prod.mk.injEq] at h
          rw [← h.2, hf]
        | cylinder c =>
          simp only [setSizeFlexCylinder, hv, hf, Option.some.injEq, Prod.mk.injEq] at h
          rw [← h.2]
          simp [Field.kind, hf]
        | sphere r =>
          simp only [setSizeFlexCylinder, hv, hf, Option.some.injEq, Prod.mk.injEq] at h
          rw [← h.2, hf]
  have keep_sph : ∀ (n n₂ : Node) (data : FlexVal) (res : Except String Unit),
      setRadiusFlexSphere n data = some (res, n₂) →
      Option.map Field.kind n₂.field = Option.map Field.kind n.field := by
    intro n n₂ data res h
    rcases hf : n.field with _ | f
    · simp only [setRadiusFlexSphere, hf] at h
      exact Option.noConfusion h
    · cases f with
      | box s =>
        simp only [setRadiusFlexSphere, hf, Option.some.injEq, Prod.mk.injEq] at h
        rw [← h.2, hf]
      | cylinder c =>
        simp only [setRadiusFlexSphere, hf, Option.some.injEq, Prod.mk.injEq] at h
        rw [← h.2, hf]
      | sphere r =>
        simp only [setRadiusFlexSphere, hf, Option.some.injEq, Prod.mk.injEq] at h
        rw [← h.2]
        simp [Field.kind, hf]
  exact ⟨fail_box, fail_cyl, fail_sph, ok_box, ok_cyl, ok_sph, keep_box, keep_cyl, keep_sph⟩

/-- Witness for `field_add_to_atomic_preconditions`: a spatial-less node and an
occupied node make every constructor fail with the node unchanged; a fresh
spatial node accepts each constructor; and a mismatched mutation preserves the
kind. -/
theorem field_add_to_atomic_preconditions_witness :
    (∃ e, boxFieldAddTo ⟨none, none⟩ ⟨1, 1, 1⟩ = (.error e, ⟨none, none⟩)) ∧
    (∃ e, cylinderFieldAddTo ⟨some (), some (.sphere 1)⟩ 2 1 =
      (.error e, ⟨some (), some (.sphere 1)⟩)) ∧
    (∃ e, sphereFieldAddTo ⟨none, none⟩ 1 = (.error e, ⟨none, none⟩)) ∧
    boxFieldAddTo ⟨some (), none⟩ ⟨1, 2, 3⟩ = (.ok (), ⟨some (), some (.box ⟨1, 2, 3⟩)⟩) ∧
    cylinderFieldAddTo ⟨some (), none⟩ 2 1 =
      (.ok (), ⟨some (), some (.cylinder ⟨2, 1⟩)⟩) ∧
    sphereFieldAddTo ⟨some (), none⟩ 5 = (.ok (), ⟨some (), some (.sphere 5)⟩) ∧
    Option.map Field.kind (Node.mk (some ()) (some (.box ⟨1, 1, 1⟩))).field =
      Option.map Field.kind (Node.mk (some ()) (some (.box ⟨1, 1, 1⟩))).field :=
  ⟨field_add_to_atomic_preconditions.1 ⟨none, none⟩ ⟨1, 1, 1⟩ (Or.inl rfl),
   field_add_to_atomic_preconditions.2.1 ⟨some (), some (.sphere 1)⟩ 2 1
     (Or.inr (by simp)),
   field_add_to_atomic_preconditions.2.2.1 ⟨none, none⟩ 1 (Or.inl rfl),
   field_add_to_atomic_preconditions.2.2.2.1 ⟨some (), none⟩ ⟨1, 2, 3⟩ (by simp) rfl,
   field_add_to_atomic_preconditions.2.2.2.2.1 ⟨some (), none⟩ 2 1 (by simp) rfl,
   field_add_to_atomic_preconditions.2.2.2.2.2.1 ⟨some (), none⟩ 5 (by simp) rfl,
   field_add_to_atomic_preconditions.2.2.2.2.2.2.2.2
     (Node.mk (some ()) (some (.box ⟨1, 1, 1⟩)))
     (Node.mk (some ()) (some (.box ⟨1, 1, 1⟩))) (.num 2) (.ok ()) rfl⟩

/-- C10: a mutation handler invoked on a node whose attached field has a
different kind decodes its arguments, silently skips the update, and returns
success with the node (hence every field parameter) unchanged. -/
theorem kind_mismatch_mutations_silently_ignored :
    (∀ (n : Node) (f : Field) (data : FlexVal) (v : Vec3),
      n.field = some f → f.kind ≠ .box → flexToVec3 data = some v →
      setSizeFlexBox n data = some (.ok (), n)) ∧
    (∀ (n : Node) (f : Field) (xs : List FlexVal),
      n.field = some f → f.kind ≠ .cylinder →
      setSizeFlexCylinder n (.arr xs) = some (.ok (), n)) ∧
    (∀ (n : Node) (f : Field) (data : FlexVal),
      n.field = some f → f.kind ≠ .sphere →
      setRadiusFlexSphere n data = some (.ok (), n)) := by
  refine ⟨?_, ?_, ?_⟩
  · intro n f data v hf hk hv
    cases f with
    | box s => exact absurd rfl hk
    | cylinder c => simp only [setSizeFlexBox, hv, hf]
    | sphere r => simp only [setSizeFlexBox, hv, hf]
  · intro n f xs hf hk
    cases f with
    | box s => simp only [setSizeFlexCylinder, FlexVal.getVector, hf]
    | cylinder c => exact absurd rfl hk
    | sphere r => simp only [setSizeFlexCylinder, FlexVal.getVector, hf]
  · intro n f data hf hk
    cases f with
    | box s => simp only [setRadiusFlexSphere, hf]
    | cylinder c => simp only [setRadiusFlexSphere, hf]
    | sphere r => exact absurd rfl hk

/-- Witness for `kind_mismatch_mutations_silently_ignored`: `setSize` on a
sphere-field node (both box and cylinder shapes) and `setRadius` on a
box-field node all succeed and leave the node unchanged. -/
theorem kind_mismatch_mutations_silently_ignored_witness :
    setSizeFlexBox ⟨some (), some (.sphere 1)⟩ (.vec3 ⟨1, 1, 1⟩) =
      some (.ok (), ⟨some (), some (.sphere 1)⟩) ∧
    setSizeFlexCylinder ⟨some (), some (.sphere 1)⟩ (.arr []) =
      some (.ok (), ⟨some (), some (.sphere 1)⟩) ∧
    setRadiusFlexSphere ⟨some (), some (.box ⟨1, 1, 1⟩)⟩ (.num 2) =
      some (.ok (), ⟨some (), some (.box ⟨1, 1, 1⟩)⟩) :=
  ⟨kind_mismatch_mutations_silently_ignored.1 ⟨some (), some (.sphere 1)⟩ (.sphere 1)
      (.vec3 ⟨1, 1, 1⟩) ⟨1, 1, 1⟩ rfl (by simp [Field.kind]) rfl,
   kind_mismatch_mutations_silently_ignored.2.1 ⟨some (), some (.sphere 1)⟩ (.sphere 1)
      [] rfl (by simp [Field.kind]),
   kind_mismatch_mutations_silently_ignored.2.2 ⟨some (), some (.box ⟨1, 1, 1⟩)⟩
      (.box ⟨1, 1, 1⟩) (.num 2) rfl (by simp [Field.kind])⟩

end StardustField
